import Mathlib

/-!
Shallow embedding of the estates-scraper repository's crawl-orchestration and
versioned-ingestion core, translated from:
  - src/db_utils.py      (DatabaseManager.save_listing, get_latest_listings)
  - src/scraping_utils.py (Scraper.save_details_to_db, scrape_menu_pages,
                           save_urls, DriverPool.acquire)
  - merge_db.py          (merge_databases)
Machine integers do not occur; SQLite rows are modelled as Lean structures with
`Option String` columns (SQL NULL = `none`), the AUTOINCREMENT surrogate key as
a `Nat` drawn from a `nextId` counter, and SQL three-valued logic for `NOT IN`
made explicit.
-/

/-- One row of the `listings` table (schema created in `_init_db` /
`DatabaseManager._init_db`): surrogate autoincrement `id`, nullable TEXT
columns, `has_updated` flag (INTEGER 0/1 modelled as `Bool`), `updated_at`
timestamp modelled as a `Nat`. -/
structure Row where
  id : Nat
  property_id : Option String
  listing_title : Option String
  total_price : Option String
  unit_price : Option String
  property_url : Option String
  image_url : Option String
  city : Option String
  district : Option String
  alley_width : Option String
  features : Option String
  property_description : Option String
  has_updated : Bool
  updated_at : Nat
deriving DecidableEq

/-- The prepared listing dict handed to `save_listing` / `save_details_to_db`
after the list-joining and fieldname filtering steps: exactly the eleven known
fields, each possibly absent (`None`). -/
structure ListingRecord where
  property_id : Option String
  listing_title : Option String
  total_price : Option String
  unit_price : Option String
  property_url : Option String
  image_url : Option String
  city : Option String
  district : Option String
  alley_width : Option String
  features : Option String
  property_description : Option String
deriving DecidableEq

/-- Python truthiness test `not x` for an optional string: true on `None` and
on the empty string. Used by the `if not property_id` guard and the
`if self.driver.session_id` liveness check. -/
def pyFalsy : Option String → Bool
  | none => true
  | some s => s == ""

/-- The SQLite store: the `listings` rows in insertion order, the next
AUTOINCREMENT id, and the clock value SQLite would stamp as
CURRENT_TIMESTAMP. -/
structure ListingsDB where
  rows : List Row
  nextId : Nat
  now : Nat
deriving DecidableEq

/-- The row built by the INSERT statement of `save_listing` /
`save_details_to_db`: all eleven record fields, the computed
`has_updated` flag, and the CURRENT_TIMESTAMP stamp. -/
def mkRow (nid : Nat) (r : ListingRecord) (flag : Bool) (t : Nat) : Row :=
  { id := nid, property_id := r.property_id, listing_title := r.listing_title,
    total_price := r.total_price, unit_price := r.unit_price,
    property_url := r.property_url, image_url := r.image_url, city := r.city,
    district := r.district, alley_width := r.alley_width,
    features := r.features, property_description := r.property_description,
    has_updated := flag, updated_at := t }

/-- `DatabaseManager.save_listing` / `Scraper.save_details_to_db` (identical
logic): reject when `property_id` is falsy; otherwise COUNT rows with this
`property_id` (SQL `=` never matches a stored NULL, and the parameter here is
a non-null string); if any exist, UPDATE all of them to `has_updated = 1` and
flag the new row; always INSERT the new row, never replace. -/
def save_listing (db : ListingsDB) (r : ListingRecord) : ListingsDB :=
  if pyFalsy r.property_id then db
  else
    let cnt :=
      (db.rows.filter (fun row => decide (row.property_id = r.property_id))).length
    let flag : Bool := decide (0 < cnt)
    let rows1 :=
      if 0 < cnt then
        db.rows.map (fun row =>
          if row.property_id = r.property_id then
            { row with has_updated := true }
          else row)
      else db.rows
    { rows := rows1 ++ [mkRow db.nextId r flag db.now],
      nextId := db.nextId + 1, now := db.now }

/-- Fold computing `MAX` over a list of ids (SQL `MAX(id)` per group; groups
arising from `GROUP BY` are nonempty, so the base value 0 is never the result
of an empty aggregate that matters). -/
def natMax (l : List Nat) : Nat := l.foldl max 0

/-- The inner subquery `SELECT MAX(id) FROM listings GROUP BY property_id`:
one max-id per distinct `property_id` value (SQL GROUP BY puts all NULLs in a
single group, matching grouping on the `Option` value). -/
def groupMaxIds (rows : List Row) : List Nat :=
  ((rows.map Row.property_id).dedup).map
    (fun pid =>
      natMax ((rows.filter (fun r => decide (r.property_id = pid))).map
        Row.id))

/-- `DatabaseManager.get_latest_listings`:
`SELECT * FROM listings WHERE id IN (SELECT MAX(id) FROM listings GROUP BY
property_id)`. -/
def get_latest_listings (db : ListingsDB) : List Row :=
  db.rows.filter (fun r => decide (r.id ∈ groupMaxIds db.rows))

/-- A row with the `has_updated` flag blanked; two rows agreeing under
`sansFlag` differ at most in their flag column. -/
def sansFlag (row : Row) : Row := { row with has_updated := false }

/-- SQLite three-valued `x NOT IN (S)` collapsed to "does the WHERE clause
pass": an empty right-hand side yields true even for NULL; otherwise a NULL
operand or a NULL element (absent an equal match) yields UNKNOWN, which does
not pass the WHERE filter. -/
def sqlNotIn (x : Option String) (s : List (Option String)) : Bool :=
  if s.isEmpty then true
  else
    match x with
    | none => false
    | some v =>
      if some v ∈ s then false
      else if none ∈ s then false
      else true

/-- The INSERT...SELECT of `merge_databases` names every column except `id`,
so copied rows receive fresh AUTOINCREMENT ids starting at the master's
counter. -/
def assignIds (base : Nat) : List Row → List Row
  | [] => []
  | r :: rest => { r with id := base } :: assignIds (base + 1) rest

/-- `merge_databases(downloaded_db_path, local_master_path)`: when the
downloaded (secondary) store is missing, abort with no change and no count;
otherwise run
`INSERT INTO listings SELECT ... FROM downloaded.listings WHERE property_id
NOT IN (SELECT property_id FROM main.listings)` against the pre-merge master
and report `cursor.rowcount`. -/
def merge_databases (master : ListingsDB) (downloaded : Option (List Row)) :
    ListingsDB × Option Nat :=
  match downloaded with
  | none => (master, none)
  | some sec =>
    let masterPids := master.rows.map (fun r => r.property_id)
    let toAdd := sec.filter (fun r => sqlNotIn r.property_id masterPids)
    let merged : ListingsDB :=
      { rows := master.rows ++ assignIds master.nextId toAdd,
        nextId := master.nextId + toAdd.length, now := master.now }
    (merged, some toAdd.length)

/-- A Selenium driver handle, reduced to the only attribute the pool
inspects: its `session_id` (NULL or empty when the session has crashed). -/
structure Driver where
  session_id : Option String
deriving DecidableEq

/-- `DriverPool` state: the held driver (possibly `None`) and the shared
`_scraper_stop_requested` event. -/
structure DriverPool where
  driver : Option Driver
  stop_requested : Bool
deriving DecidableEq

/-- `DriverPool.acquire`: fail fast with the cancellation error when shutdown
was requested; return the held driver when it is live
(`self.driver and self.driver.session_id`); otherwise re-initialize.
`fresh` is the driver a successful `_init_driver` would produce. -/
def acquire (p : DriverPool) (fresh : Driver) :
    Except String (Driver × DriverPool) :=
  if p.stop_requested then
    .error "Acquire cancelled: Scraper shutdown initiated."
  else
    match p.driver with
    | some d =>
      if pyFalsy d.session_id then .ok (fresh, { p with driver := some fresh })
      else .ok (d, p)
    | none => .ok (fresh, { p with driver := some fresh })

/-- `MAX_RETRIES` from src/config.py. -/
def MAX_RETRIES : Nat := 3

/-- `TOTAL_PAGES` from src/config.py. -/
def TOTAL_PAGES : Nat := 506

/-- Observable outcome of one `requests.get` attempt in `scrape_menu_pages`:
a body whose extracted links are `links`, an HTTP 4xx/5xx status, an empty
body, or a raised `RequestException`. -/
inductive FetchOutcome where
  | success (links : List String)
  | httpError
  | emptyBody
  | networkError
deriving DecidableEq

/-- Python `set.update`: add each link not already present, keeping insertion
order as the list representation of the set. -/
def setUpdate (acc : List String) (links : List String) : List String :=
  links.foldl (fun a l => if l ∈ a then a else a ++ [l]) acc

/-- Walker state threaded through `scrape_menu_pages`: the
`stop_requested` flag, `all_scraped_urls`, and the ordered log of
(page, retry) fetch attempts actually issued. -/
structure WalkState where
  stop : Bool
  urls : List String
  fetchLog : List (Nat × Nat)
deriving DecidableEq

/-- The inner `for retry in range(MAX_RETRIES)` loop of `scrape_menu_pages`
for one page: `env page retry` is the outcome of that attempt's fetch,
`cancel k` whether an external caller has set `stop_requested` by the time k
fetches have been issued. The flag is read at the top of every attempt and
again inside each `except` handler; `consecutive_http_errors` (`che`) and
`consecutive_empty_pages` (`cep`) are incremented before the `>= 3`
comparison, reset on success, and untouched by a `RequestException`. -/
def pageRetry (env : Nat → Nat → FetchOutcome) (cancel : Nat → Bool)
    (page : Nat) : Nat → Nat → Nat → Nat → WalkState → WalkState
  | 0, _, _, _, s => s
  | fuel + 1, retry, che, cep, s =>
    if s.stop || cancel s.fetchLog.length then s
    else
      let s1 : WalkState := { s with fetchLog := s.fetchLog ++ [(page, retry)] }
      match env page retry with
      | .success links => { s1 with urls := setUpdate s1.urls links }
      | .httpError =>
        if che + 1 ≥ 3 then { s1 with stop := true }
        else if s1.stop || cancel s1.fetchLog.length then s1
        else pageRetry env cancel page fuel (retry + 1) (che + 1) cep s1
      | .emptyBody =>
        if cep + 1 ≥ 3 then { s1 with stop := true }
        else if s1.stop || cancel s1.fetchLog.length then s1
        else pageRetry env cancel page fuel (retry + 1) che (cep + 1) s1
      | .networkError =>
        if s1.stop || cancel s1.fetchLog.length then s1
        else pageRetry env cancel page fuel (retry + 1) che cep s1

/-- The outer `for page_num in range(1, TOTAL_PAGES + 1)` loop: the flag is
read at the top of each page iteration; both consecutive-failure counters are
re-initialized to 0 for every page before its retry loop starts (this is the
literal placement of `consecutive_http_errors = 0` /
`consecutive_empty_pages = 0` inside the page loop in the source). -/
def pageLoop (env : Nat → Nat → FetchOutcome) (cancel : Nat → Bool) :
    Nat → Nat → WalkState → WalkState
  | 0, _, s => s
  | rem + 1, page, s =>
    if s.stop || cancel s.fetchLog.length then s
    else pageLoop env cancel rem (page + 1)
      (pageRetry env cancel page MAX_RETRIES 0 0 0 s)

/-- `Scraper.scrape_menu_pages`: walk pages 1..TOTAL_PAGES starting from an
unset flag and an empty URL set, and return the accumulated state. -/
def scrape_menu_pages (env : Nat → Nat → FetchOutcome)
    (cancel : Nat → Bool) : WalkState :=
  pageLoop env cancel TOTAL_PAGES 1 { stop := false, urls := [], fetchLog := [] }

/-- `Scraper.save_urls`: write nothing when the set is empty, else dump the
URL list to the manifest; the result is the manifest content written. -/
def save_urls (urls : List String) : Option (List String) :=
  if urls.isEmpty then none else some urls

/-- A record with all fields absent except the given `property_id`. -/
def blankRecord (pid : Option String) : ListingRecord :=
  { property_id := pid, listing_title := none, total_price := none,
    unit_price := none, property_url := none, image_url := none, city := none,
    district := none, alley_width := none, features := none,
    property_description := none }

/-- The freshly initialized store (empty table, AUTOINCREMENT at 1). -/
def emptyDB : ListingsDB := { rows := [], nextId := 1, now := 0 }

/-- A concrete row with the given id, identity and title, flag unset. -/
def mkTestRow (i : Nat) (pid : Option String) (title : Option String) : Row :=
  { id := i, property_id := pid, listing_title := title, total_price := none,
    unit_price := none, property_url := none, image_url := none, city := none,
    district := none, alley_width := none, features := none,
    property_description := none, has_updated := false, updated_at := 0 }

/-- Environment in which every fetch attempt returns an HTTP error. -/
def envAllHttp : Nat → Nat → FetchOutcome := fun _ _ => .httpError

/-- Environment in which every fetch attempt returns an empty body. -/
def envAllEmpty : Nat → Nat → FetchOutcome := fun _ _ => .emptyBody

/-- Environment in which every fetch succeeds with an empty link list. -/
def envEmptySucc : Nat → Nat → FetchOutcome := fun _ _ => .success []

/-- No external cancellation is ever signalled. -/
def noCancel : Nat → Bool := fun _ => false

/-- Page 1 yields one link, page 2 yields zero links, later pages yield a
link again. -/
def envC3 : Nat → Nat → FetchOutcome := fun p _ =>
  if p = 1 then .success ["u1"]
  else if p = 2 then .success [] else .success ["u3"]

/-- External cancellation signalled once three fetches have been issued. -/
def cancelAfterThree : Nat → Bool := fun k => decide (3 ≤ k)

/-- Pages yield links u1, u2, u2, ... -/
def envC8 : Nat → Nat → FetchOutcome := fun p _ =>
  if p = 1 then .success ["u1"] else .success ["u2"]

/-- External cancellation signalled once two fetches have been issued. -/
def cancelAfterTwo : Nat → Bool := fun k => decide (2 ≤ k)

/-- C5: a record whose `property_id` is absent is rejected silently: the
append returns (total function, no exception), the store is unchanged, so
the row count is unchanged and no row is produced. -/
theorem c5_reject_absent_id (db : ListingsDB) (r : ListingRecord)
    (h : r.property_id = none) :
    save_listing db r = db ∧
    (save_listing db r).rows.length = db.rows.length := by
  have hf : pyFalsy r.property_id = true := by rw [h]; rfl
  constructor
  · simp [save_listing, hf]
  · simp [save_listing, hf]

theorem c5_reject_absent_id_witness :
    save_listing emptyDB (blankRecord none) = emptyDB ∧
    (save_listing emptyDB (blankRecord none)).rows.length =
      emptyDB.rows.length :=
  c5_reject_absent_id emptyDB (blankRecord none) rfl

/-- C9: `acquire()` fails immediately with the cancellation error whenever
shutdown has been requested (never returning a session); otherwise, when the
held session is dead (no driver, or a driver with no active session handle)
it re-initializes a fresh session before returning, and when the session is
live it returns exactly that session with the pool unchanged. -/
theorem c9_acquire (p : DriverPool) (fresh : Driver) :
    (p.stop_requested = true →
      acquire p fresh =
        .error "Acquire cancelled: Scraper shutdown initiated.") ∧
    (p.stop_requested = false → p.driver = none →
      acquire p fresh = .ok (fresh, { p with driver := some fresh })) ∧
    (p.stop_requested = false → ∀ d, p.driver = some d →
      pyFalsy d.session_id = true →
      acquire p fresh = .ok (fresh, { p with driver := some fresh })) ∧
    (p.stop_requested = false → ∀ d, p.driver = some d →
      pyFalsy d.session_id = false →
      acquire p fresh = .ok (d, p)) := by
  refine ⟨?_, ?_, ?_, ?_⟩
  · intro h; simp [acquire, h]
  · intro h hd; simp [acquire, h, hd]
  · intro h d hd hdead; simp [acquire, h, hd, hdead]
  · intro h d hd hlive; simp [acquire, h, hd, hlive]

theorem c9_acquire_witness :
    acquire { driver := some { session_id := none }, stop_requested := false }
        { session_id := some "s2" } =
      .ok ({ session_id := some "s2" },
        { driver := some { session_id := some "s2" },
          stop_requested := false }) :=
  (c9_acquire
    { driver := some { session_id := none }, stop_requested := false }
    { session_id := some "s2" }).2.2.1 rfl { session_id := none } rfl rfl

/-- One-step unfolding of the page loop. -/
theorem pageLoop_succ (env : Nat → Nat → FetchOutcome) (cancel : Nat → Bool)
    (n page : Nat) (s : WalkState) :
    pageLoop env cancel (n + 1) page s =
      if s.stop || cancel s.fetchLog.length then s
      else pageLoop env cancel n (page + 1)
        (pageRetry env cancel page MAX_RETRIES 0 0 0 s) := rfl

/-- Once the stop flag is set, the page loop returns immediately. -/
theorem pageLoop_stop (env : Nat → Nat → FetchOutcome) (cancel : Nat → Bool)
    (rem page : Nat) (s : WalkState) (h : s.stop = true) :
    pageLoop env cancel rem page s = s := by
  cases rem with
  | zero => rfl
  | succ n => rw [pageLoop_succ]; simp [h]

/-- With the flag unset and no cancellation pending, the page loop proceeds
into the page's retry loop and continues. -/
theorem pageLoop_go (env : Nat → Nat → FetchOutcome) (cancel : Nat → Bool)
    (n page : Nat) (s : WalkState)
    (h : (s.stop || cancel s.fetchLog.length) = false) :
    pageLoop env cancel (n + 1) page s =
      pageLoop env cancel n (page + 1)
        (pageRetry env cancel page MAX_RETRIES 0 0 0 s) := by
  rw [pageLoop_succ]; simp [h]

/-- A page whose first attempt fails (HTTP error or empty body) and whose
second attempt succeeds: the retry loop recovers within the page, adds the
links, and leaves the stop flag untouched. -/
theorem pageRetry_recover (env : Nat → Nat → FetchOutcome) (q : Nat)
    (s : WalkState) (ls : List String) (hstop : s.stop = false)
    (h0 : env q 0 = .httpError ∨ env q 0 = .emptyBody)
    (h1 : env q 1 = .success ls) :
    pageRetry env noCancel q MAX_RETRIES 0 0 0 s =
      { s with urls := setUpdate s.urls ls,
               fetchLog := s.fetchLog ++ [(q, 0), (q, 1)] } := by
  rcases h0 with h0 | h0 <;>
    simp [MAX_RETRIES, pageRetry, noCancel, hstop, h0, h1]

/-- Three consecutive same-class failing attempts within a single page's
retry loop (entered with both counters at 0) set the process-wide stop flag:
three HTTP-error attempts trip `consecutive_http_errors`, three empty-body
attempts trip `consecutive_empty_pages`. -/
theorem pageRetry_allFail (env : Nat → Nat → FetchOutcome) (p : Nat)
    (s : WalkState) (hstop : s.stop = false)
    (h : (env p 0 = .httpError ∧ env p 1 = .httpError ∧
            env p 2 = .httpError) ∨
         (env p 0 = .emptyBody ∧ env p 1 = .emptyBody ∧
            env p 2 = .emptyBody)) :
    pageRetry env noCancel p MAX_RETRIES 0 0 0 s =
      { s with stop := true,
               fetchLog := s.fetchLog ++ [(p, 0), (p, 1), (p, 2)] } := by
  rcases h with ⟨h0, h1, h2⟩ | ⟨h0, h1, h2⟩ <;>
    simp [MAX_RETRIES, pageRetry, noCancel, hstop, h0, h1, h2]

/-- Generalized walk lemma behind the corrected C1: starting at `page` with a
clean state, if every page before `p` recovers after one failing attempt and
page `p` answers same-class failures (all HTTP errors, or all empty bodies)
on all three of its attempts, the walk stops at page `p` and never fetches a
higher page index. -/
theorem c1_loop (env : Nat → Nat → FetchOutcome) (p : Nat) :
    ∀ rem page s, s.stop = false →
    (∀ q, page ≤ q → q < p →
      (env q 0 = .httpError ∨ env q 0 = .emptyBody) ∧
        ∃ ls, env q 1 = .success ls) →
    ((env p 0 = .httpError ∧ env p 1 = .httpError ∧
        env p 2 = .httpError) ∨
     (env p 0 = .emptyBody ∧ env p 1 = .emptyBody ∧
        env p 2 = .emptyBody)) →
    page ≤ p → p < page + rem →
    (∀ pr ∈ s.fetchLog, pr.1 < page) →
    (pageLoop env noCancel rem page s).stop = true ∧
    (p, 2) ∈ (pageLoop env noCancel rem page s).fetchLog ∧
    ∀ pr ∈ (pageLoop env noCancel rem page s).fetchLog, pr.1 ≤ p := by
  intro rem
  induction rem with
  | zero => intro page s _ _ _ hple hlt _; omega
  | succ n ih =>
    intro page s hstop hb hp hple hlt hlog
    have hcond : (s.stop || noCancel s.fetchLog.length) = false := by
      simp [hstop, noCancel]
    rw [pageLoop_go env noCancel n page s hcond]
    rcases eq_or_lt_of_le hple with heq | hlt2
    · subst heq
      rw [pageRetry_allFail env page s hstop hp]
      rw [pageLoop_stop env noCancel n (page + 1) _ rfl]
      refine ⟨rfl, by simp, ?_⟩
      intro pr hpr
      rcases List.mem_append.mp hpr with hold | hnew
      · exact Nat.le_of_lt (hlog pr hold)
      · simp at hnew
        rcases hnew with h | h | h <;> (subst h; exact Nat.le_refl page)
    · obtain ⟨h0q, ls, h1q⟩ := hb page (Nat.le_refl page) hlt2
      rw [pageRetry_recover env page s ls hstop h0q h1q]
      apply ih
      · exact hstop
      · intro q hq1 hq2
        exact hb q (by omega) hq2
      · exact hp
      · omega
      · omega
      · intro pr hpr
        rcases List.mem_append.mp hpr with hold | hnew
        · exact Nat.lt_succ_of_lt (hlog pr hold)
        · simp at hnew
          rcases hnew with h | h <;> (subst h; exact Nat.lt_succ_self page)

/-- C1 counterexample: in the environment where every fetch attempt returns
an HTTP error, the process-wide stop trips after the three retry attempts of
page 1 alone — the fetch log is `[(1,0), (1,1), (1,2)]` and no second page
index is ever fetched. The claim says the consecutive-failure counters span
distinct page iterations (not per page), so that tripping requires three
consecutive HTTP-error pages; here the stop trips without even one completed
page iteration, because the counters live inside the per-page retry loop. -/
theorem c1_counterexample :
    (scrape_menu_pages envAllHttp noCancel).stop = true ∧
    (scrape_menu_pages envAllHttp noCancel).fetchLog =
      [(1, 0), (1, 1), (1, 2)] := by decide

/-- C1 amended: the consecutive-failure counters are re-initialized to zero
at the start of every page iteration, so they count consecutive failing
attempts within one page's retry loop, never across pages. Three consecutive
HTTP-error attempts (tripping `consecutive_http_errors`) or three
consecutive empty-body attempts (tripping `consecutive_empty_pages`) within
a single page `p` trip the process-wide stop — no higher page index is ever
fetched — while any number of earlier pages that each recover after a single
failing attempt contribute nothing to the counters. -/
theorem c1_amended (env : Nat → Nat → FetchOutcome) (p : Nat)
    (h1 : 1 ≤ p) (h2 : p ≤ TOTAL_PAGES)
    (hb : ∀ q, 1 ≤ q → q < p →
      (env q 0 = .httpError ∨ env q 0 = .emptyBody) ∧
        ∃ ls, env q 1 = .success ls)
    (hp : (env p 0 = .httpError ∧ env p 1 = .httpError ∧
             env p 2 = .httpError) ∨
          (env p 0 = .emptyBody ∧ env p 1 = .emptyBody ∧
             env p 2 = .emptyBody)) :
    (scrape_menu_pages env noCancel).stop = true ∧
    (p, 2) ∈ (scrape_menu_pages env noCancel).fetchLog ∧
    ∀ pr ∈ (scrape_menu_pages env noCancel).fetchLog, pr.1 ≤ p := by
  have h := c1_loop env p TOTAL_PAGES 1
    { stop := false, urls := [], fetchLog := [] } rfl hb hp h1
    (by simp [TOTAL_PAGES] at h2 ⊢; omega) (by intro pr hpr; simp at hpr)
  exact h

theorem c1_amended_witness :
    (scrape_menu_pages envAllEmpty noCancel).stop = true ∧
    (1, 2) ∈ (scrape_menu_pages envAllEmpty noCancel).fetchLog ∧
    ∀ pr ∈ (scrape_menu_pages envAllEmpty noCancel).fetchLog, pr.1 ≤ 1 :=
  c1_amended envAllEmpty 1 (Nat.le_refl 1) (by decide)
    (fun q hq1 hq2 => absurd (Nat.lt_of_le_of_lt hq1 hq2) (Nat.lt_irrefl 1))
    (Or.inr ⟨rfl, rfl, rfl⟩)

/-- One-step unfolding of the per-page retry loop. -/
theorem pageRetry_succ (env : Nat → Nat → FetchOutcome) (cancel : Nat → Bool)
    (page fuel retry che cep : Nat) (s : WalkState) :
    pageRetry env cancel page (fuel + 1) retry che cep s =
      if s.stop || cancel s.fetchLog.length then s
      else
        match env page retry with
        | .success links =>
          { s with urls := setUpdate s.urls links,
                   fetchLog := s.fetchLog ++ [(page, retry)] }
        | .httpError =>
          if che + 1 ≥ 3 then
            { s with stop := true, fetchLog := s.fetchLog ++ [(page, retry)] }
          else if s.stop || cancel (s.fetchLog ++ [(page, retry)]).length then
            { s with fetchLog := s.fetchLog ++ [(page, retry)] }
          else
            pageRetry env cancel page fuel (retry + 1) (che + 1) cep
              { s with fetchLog := s.fetchLog ++ [(page, retry)] }
        | .emptyBody =>
          if cep + 1 ≥ 3 then
            { s with stop := true, fetchLog := s.fetchLog ++ [(page, retry)] }
          else if s.stop || cancel (s.fetchLog ++ [(page, retry)]).length then
            { s with fetchLog := s.fetchLog ++ [(page, retry)] }
          else
            pageRetry env cancel page fuel (retry + 1) che (cep + 1)
              { s with fetchLog := s.fetchLog ++ [(page, retry)] }
        | .networkError =>
          if s.stop || cancel (s.fetchLog ++ [(page, retry)]).length then
            { s with fetchLog := s.fetchLog ++ [(page, retry)] }
          else
            pageRetry env cancel page fuel (retry + 1) che cep
              { s with fetchLog := s.fetchLog ++ [(page, retry)] } := rfl

/-- A page whose first attempt succeeds: one fetch, links merged, flag
untouched, retry loop left. -/
theorem pageRetry_success (env : Nat → Nat → FetchOutcome) (q : Nat)
    (s : WalkState) (ls : List String) (hstop : s.stop = false)
    (h0 : env q 0 = .success ls) :
    pageRetry env noCancel q MAX_RETRIES 0 0 0 s =
      { s with urls := setUpdate s.urls ls,
               fetchLog := s.fetchLog ++ [(q, 0)] } := by
  simp [MAX_RETRIES, pageRetry, noCancel, hstop, h0]

/-- Generalized walk lemma behind the corrected C3: when every page in the
remaining range answers its first attempt with a successful body, the walker
visits every page index in the range exactly once — pages whose extracted
link list is empty included — and accumulates the union of all links. -/
theorem c3_loop (env : Nat → Nat → FetchOutcome) (links : Nat → List String) :
    ∀ rem page s, s.stop = false →
    (∀ q, page ≤ q → q < page + rem → env q 0 = .success (links q)) →
    (pageLoop env noCancel rem page s).stop = false ∧
    (pageLoop env noCancel rem page s).fetchLog =
      s.fetchLog ++ (List.range' page rem).map (fun p => (p, 0)) ∧
    (pageLoop env noCancel rem page s).urls =
      (List.range' page rem).foldl (fun acc p => setUpdate acc (links p))
        s.urls := by
  intro rem
  induction rem with
  | zero => intro page s hstop _; simp [pageLoop, hstop, List.range']
  | succ n ih =>
    intro page s hstop hsucc
    have hcond : (s.stop || noCancel s.fetchLog.length) = false := by
      simp [hstop, noCancel]
    rw [pageLoop_go env noCancel n page s hcond]
    rw [pageRetry_success env page s (links page) hstop
      (hsucc page (Nat.le_refl page) (by omega))]
    obtain ⟨ha, hb2, hc⟩ := ih (page + 1)
      { s with urls := setUpdate s.urls (links page),
               fetchLog := s.fetchLog ++ [(page, 0)] }
      hstop (fun q hq1 hq2 => hsucc q (by omega) (by omega))
    rw [List.range'_succ page n 1]
    refine ⟨ha, ?_, ?_⟩
    · rw [hb2]; simp
    · rw [hc]; rfl

/-- C3 counterexample: page 1 yields the link u1, page 2 yields zero links,
and the walker nevertheless fetches page 3 (the third entry of the fetch
log), accumulating its link u3 — so a zero-link page is not interpreted as
the end of the walk and does not stop further fetching. (An external
cancellation after the third fetch merely truncates the run for finite
evaluation; the fetch of page 3 precedes it.) -/
theorem c3_counterexample :
    (scrape_menu_pages envC3 cancelAfterThree).fetchLog =
      [(1, 0), (2, 0), (3, 0)] ∧
    (scrape_menu_pages envC3 cancelAfterThree).urls = ["u1", "u3"] := by
  decide

/-- C3 amended: the page walker has only the bounded mode — it iterates the
fixed inclusive range 1..TOTAL_PAGES. A fetched page whose body yields zero
extracted links is treated as an ordinary success: its (empty) link set is
merged and the walk advances to the next index, so the walker performs one
fetch for every page of the range and returns the union of all extracted
links; no zero-link termination heuristic exists. -/
theorem c3_amended (env : Nat → Nat → FetchOutcome) (links : Nat → List String)
    (h : ∀ q, 1 ≤ q → q ≤ TOTAL_PAGES → env q 0 = .success (links q)) :
    (scrape_menu_pages env noCancel).stop = false ∧
    (scrape_menu_pages env noCancel).fetchLog =
      (List.range' 1 TOTAL_PAGES).map (fun p => (p, 0)) ∧
    (scrape_menu_pages env noCancel).urls =
      (List.range' 1 TOTAL_PAGES).foldl
        (fun acc p => setUpdate acc (links p)) [] := by
  have hc := c3_loop env links TOTAL_PAGES 1
    { stop := false, urls := [], fetchLog := [] } rfl
    (fun q hq1 hq2 => h q hq1 (by omega))
  simpa [scrape_menu_pages] using hc

theorem c3_amended_witness :
    (scrape_menu_pages envEmptySucc noCancel).stop = false ∧
    (scrape_menu_pages envEmptySucc noCancel).fetchLog =
      (List.range' 1 TOTAL_PAGES).map (fun p => (p, 0)) ∧
    (scrape_menu_pages envEmptySucc noCancel).urls =
      (List.range' 1 TOTAL_PAGES).foldl
        (fun acc p => setUpdate acc ((fun _ => ([] : List String)) p)) [] :=
  c3_amended envEmptySucc (fun _ => []) (fun _ _ _ => rfl)

/-- Every fetch issued inside the per-page retry loop happens while the flag
is unset: the k-th fetch (0-based over the whole walk) is guarded by a check
that read `cancel k = false`. -/
theorem c8_retryInv (env : Nat → Nat → FetchOutcome) (cancel : Nat → Bool)
    (page : Nat) : ∀ fuel retry che cep s,
    (∀ k, k < s.fetchLog.length → cancel k = false) →
    ∀ k, k < (pageRetry env cancel page fuel retry che cep s).fetchLog.length →
      cancel k = false := by
  intro fuel
  induction fuel with
  | zero => intro retry che cep s hs k hk; exact hs k hk
  | succ n ih =>
    intro retry che cep s hs k hk
    rw [pageRetry_succ] at hk
    by_cases hc : (s.stop || cancel s.fetchLog.length) = true
    · rw [if_pos hc] at hk; exact hs k hk
    · have hc2 : (s.stop || cancel s.fetchLog.length) = false :=
        Bool.not_eq_true _ ▸ Bool.of_not_eq_true hc
      rw [if_neg hc] at hk
      have hcf : cancel s.fetchLog.length = false :=
        (Bool.or_eq_false_iff.mp hc2).2
      have hP1 : ∀ j,
          j < ({ s with fetchLog := s.fetchLog ++ [(page, retry)] } :
            WalkState).fetchLog.length → cancel j = false := by
        intro j hj
        simp only [List.length_append, List.length_cons, List.length_nil] at hj
        rcases Nat.lt_or_ge j s.fetchLog.length with h | h
        · exact hs j h
        · have hj2 : j = s.fetchLog.length := by omega
          rw [hj2]; exact hcf
      split at hk
      · exact hP1 k hk
      · split at hk
        · exact hP1 k hk
        · split at hk
          · exact hP1 k hk
          · exact ih (retry + 1) (che + 1) cep _ hP1 k hk
      · split at hk
        · exact hP1 k hk
        · split at hk
          · exact hP1 k hk
          · exact ih (retry + 1) che (cep + 1) _ hP1 k hk
      · split at hk
        · exact hP1 k hk
        · exact ih (retry + 1) che cep _ hP1 k hk

/-- The fetch-guard invariant lifted to the whole page loop. -/
theorem c8_loopInv (env : Nat → Nat → FetchOutcome) (cancel : Nat → Bool) :
    ∀ rem page s,
    (∀ k, k < s.fetchLog.length → cancel k = false) →
    ∀ k, k < (pageLoop env cancel rem page s).fetchLog.length →
      cancel k = false := by
  intro rem
  induction rem with
  | zero => intro page s hs; exact hs
  | succ n ih =>
    intro page s hs k hk
    rw [pageLoop_succ] at hk
    split at hk
    · exact hs k hk
    · exact ih (page + 1) _
        (c8_retryInv env cancel page MAX_RETRIES 0 0 0 s hs) k hk

/-- C8: cooperative cancellation. The stop flag is read at the top of every
page iteration and every retry attempt, so every fetch the walk ever issues
— the k-th fetch overall — was started while the cancellation signal was
still unobserved (`cancel k = false`); consequently, once a (monotone)
cancellation signal is set after N fetches, no further fetch or retry
attempt starts (the log length never exceeds N). The URL set accumulated
before cancellation is preserved in the returned state, and `save_urls` on a
non-empty accumulated set persists exactly that set to the manifest. -/
theorem c8_cancellation (env : Nat → Nat → FetchOutcome)
    (cancel : Nat → Bool) :
    (∀ k, k < (scrape_menu_pages env cancel).fetchLog.length →
      cancel k = false) ∧
    ((scrape_menu_pages env cancel).urls.isEmpty = false →
      save_urls (scrape_menu_pages env cancel).urls =
        some (scrape_menu_pages env cancel).urls) ∧
    (∀ N, (∀ i j, i ≤ j → cancel i = true → cancel j = true) →
      cancel N = true →
      (scrape_menu_pages env cancel).fetchLog.length ≤ N) := by
  have hinv := c8_loopInv env cancel TOTAL_PAGES 1
    { stop := false, urls := [], fetchLog := [] }
    (by intro k hk; simp at hk)
  refine ⟨hinv, ?_, ?_⟩
  · intro h; simp [save_urls, h]
  · intro N hmono hN
    by_contra hcon
    push_neg at hcon
    have hf := hinv N hcon
    rw [hf] at hN
    exact Bool.false_ne_true hN

theorem c8_cancellation_witness :
    (scrape_menu_pages envC8 cancelAfterTwo).urls = ["u1", "u2"] ∧
    (scrape_menu_pages envC8 cancelAfterTwo).fetchLog.length ≤ 2 ∧
    save_urls (scrape_menu_pages envC8 cancelAfterTwo).urls =
      some ["u1", "u2"] := by
  have h := c8_cancellation envC8 cancelAfterTwo
  refine ⟨by decide, ?_, by decide⟩
  exact h.2.2 2
    (fun i j hij hi => by simp [cancelAfterTwo] at hi ⊢; omega)
    (by decide)

/-- The seed of the max fold bounds it from below. -/
theorem le_foldl_max (l : List Nat) : ∀ a : Nat, a ≤ l.foldl max a := by
  induction l with
  | nil => intro a; exact Nat.le_refl a
  | cons y t ih =>
    intro a
    exact Nat.le_trans (Nat.le_max_left a y) (ih (max a y))

/-- Every element of the list bounds the max fold from below. -/
theorem mem_le_foldl_max (l : List Nat) :
    ∀ a : Nat, ∀ x ∈ l, x ≤ l.foldl max a := by
  induction l with
  | nil => intro a x hx; exact absurd hx (List.not_mem_nil x)
  | cons y t ih =>
    intro a x hx
    rcases List.mem_cons.mp hx with h | h
    · subst h
      exact Nat.le_trans (Nat.le_max_right a x) (le_foldl_max t (max a x))
    · exact ih (max a y) x h

/-- The max fold returns either its seed or a list element. -/
theorem foldl_max_mem (l : List Nat) :
    ∀ a : Nat, l.foldl max a = a ∨ l.foldl max a ∈ l := by
  induction l with
  | nil => intro a; exact Or.inl rfl
  | cons y t ih =>
    intro a
    rcases ih (max a y) with h | h
    · rcases Nat.le_total a y with hle | hle
      · refine Or.inr ?_
        rw [List.foldl_cons, h, show max a y = y by omega]
        exact List.mem_cons_self y t
      · exact Or.inl (by rw [List.foldl_cons, h]; omega)
    · exact Or.inr (List.mem_cons_of_mem y h)

/-- `natMax` bounds every element of its list. -/
theorem natMax_ge (l : List Nat) (x : Nat) (hx : x ∈ l) : x ≤ natMax l :=
  mem_le_foldl_max l 0 x hx

/-- On a nonempty list, `natMax` is attained by an element. -/
theorem natMax_mem (l : List Nat) (h : l ≠ []) : natMax l ∈ l := by
  rcases foldl_max_mem l 0 with h0 | h0
  · cases l with
    | nil => exact absurd rfl h
    | cons y t =>
      have hy : y ≤ natMax (y :: t) :=
        natMax_ge (y :: t) y (List.mem_cons_self y t)
      have hmz : natMax (y :: t) = 0 := h0
      have hy0 : y = 0 := by omega
      rw [show natMax (y :: t) = y by omega]
      exact List.mem_cons_self y t
  · exact h0

/-- In a list of rows with pairwise distinct ids, a row is determined by its
id. -/
theorem row_eq_of_id_eq (rows : List Row) (hnd : (rows.map Row.id).Nodup)
    (a b : Row) (ha : a ∈ rows) (hb : b ∈ rows) (h : a.id = b.id) : a = b :=
  List.inj_on_of_nodup_map hnd ha hb h

/-- A duplicate-free list whose members all equal `r0`, with `r0` a member,
is the singleton `[r0]`. -/
theorem eq_singleton_of_mem_of_all {α : Type} (l : List α) (hnd : l.Nodup)
    (r0 : α) (h0 : r0 ∈ l) (hall : ∀ x ∈ l, x = r0) : l = [r0] := by
  cases l with
  | nil => exact absurd h0 (List.not_mem_nil r0)
  | cons y t =>
    have hy : y = r0 := hall y (List.mem_cons_self y t)
    subst hy
    cases t with
    | nil => rfl
    | cons z t2 =>
      have hz : z = y := hall z (by simp)
      subst hz
      exact absurd (List.nodup_cons.mp hnd).1 (by simp)

/-- Membership in the result of `get_latest_listings`, for stores with
pairwise distinct row ids: a stored row is returned exactly when its id is
maximal within its `property_id` group. -/
theorem mem_latest_iff (db : ListingsDB) (hnd : (db.rows.map Row.id).Nodup)
    (r0 : Row) (h0 : r0 ∈ db.rows) :
    r0 ∈ get_latest_listings db ↔
      ∀ r1 ∈ db.rows, r1.property_id = r0.property_id → r1.id ≤ r0.id := by
  rw [get_latest_listings, List.mem_filter]
  simp only [decide_eq_true_eq]
  constructor
  · rintro ⟨-, hin⟩ r1 h1 hp1
    rw [groupMaxIds, List.mem_map] at hin
    obtain ⟨pid, hpidmem, hpid⟩ := hin
    have hgrp : ∃ rx, rx ∈ db.rows ∧ rx.property_id = pid := by
      rw [List.mem_dedup, List.mem_map] at hpidmem
      obtain ⟨rx, hrx, hrxe⟩ := hpidmem
      exact ⟨rx, hrx, hrxe⟩
    obtain ⟨rx, hrx, hrxe⟩ := hgrp
    have hne : ((db.rows.filter
        (fun r => decide (r.property_id = pid))).map Row.id) ≠ [] := by
      have : rx ∈ db.rows.filter (fun r => decide (r.property_id = pid)) :=
        List.mem_filter.mpr ⟨hrx, by simp [hrxe]⟩
      intro hc
      rw [List.map_eq_nil_iff] at hc
      rw [hc] at this
      exact absurd this (List.not_mem_nil rx)
    have hmem := natMax_mem _ hne
    rw [List.mem_map] at hmem
    obtain ⟨ry, hry, hrye⟩ := hmem
    have hryrows : ry ∈ db.rows := (List.mem_filter.mp hry).1
    have hrypid : ry.property_id = pid := by
      have := (List.mem_filter.mp hry).2
      simpa using this
    have hry0 : ry = r0 :=
      row_eq_of_id_eq db.rows hnd ry r0 hryrows h0 (by rw [hrye, hpid])
    have hr1g : r1 ∈ db.rows.filter (fun r => decide (r.property_id = pid)) :=
      List.mem_filter.mpr ⟨h1, by simp [hp1, ← hry0, hrypid]⟩
    have := natMax_ge _ r1.id (List.mem_map_of_mem Row.id hr1g)
    omega
  · intro hmax
    refine ⟨h0, ?_⟩
    rw [groupMaxIds, List.mem_map]
    refine ⟨r0.property_id, ?_, ?_⟩
    · rw [List.mem_dedup, List.mem_map]
      exact ⟨r0, h0, rfl⟩
    · have h0g : r0 ∈ db.rows.filter
          (fun r => decide (r.property_id = r0.property_id)) :=
        List.mem_filter.mpr ⟨h0, by simp⟩
      have hle : r0.id ≤ natMax ((db.rows.filter
          (fun r => decide (r.property_id = r0.property_id))).map Row.id) :=
        natMax_ge _ r0.id (List.mem_map_of_mem Row.id h0g)
      have hne : ((db.rows.filter
          (fun r => decide (r.property_id = r0.property_id))).map Row.id)
          ≠ [] := by
        intro hc
        rw [List.map_eq_nil_iff] at hc
        rw [hc] at h0g
        exact absurd h0g (List.not_mem_nil r0)
      have hmem := natMax_mem _ hne
      rw [List.mem_map] at hmem
      obtain ⟨ry, hry, hrye⟩ := hmem
      have hge : natMax ((db.rows.filter
          (fun r => decide (r.property_id = r0.property_id))).map Row.id)
          ≤ r0.id := by
        rw [← hrye]
        exact hmax ry (List.mem_filter.mp hry).1
          (by have := (List.mem_filter.mp hry).2; simpa using this)
      omega

/-- For stores with pairwise distinct row ids: the rows `get_latest_listings`
returns for a given identity form exactly the singleton of that identity's
maximal-id row. -/
theorem latest_group_singleton (db : ListingsDB)
    (hnd : (db.rows.map Row.id).Nodup) (pid : Option String) (r0 : Row)
    (h0 : r0 ∈ db.rows) (hpid : r0.property_id = pid)
    (hmax : ∀ r1 ∈ db.rows, r1.property_id = pid → r1.id ≤ r0.id) :
    (get_latest_listings db).filter
      (fun r => decide (r.property_id = pid)) = [r0] := by
  have hrows_nd : db.rows.Nodup := List.Nodup.of_map Row.id hnd
  have hlat_nd : (get_latest_listings db).Nodup :=
    List.Nodup.filter _ hrows_nd
  have h0lat : r0 ∈ get_latest_listings db := by
    rw [mem_latest_iff db hnd r0 h0]
    intro r1 h1 hp1
    exact hmax r1 h1 (by rw [hp1, hpid])
  apply eq_singleton_of_mem_of_all _ (List.Nodup.filter _ hlat_nd) r0
  · exact List.mem_filter.mpr ⟨h0lat, by simp [hpid]⟩
  · intro x hx
    have hxlat := (List.mem_filter.mp hx).1
    have hxpid : x.property_id = pid := by
      have := (List.mem_filter.mp hx).2
      simpa using this
    have hxrows : x ∈ db.rows :=
      (List.mem_filter.mp hxlat).1
    have hxmax := (mem_latest_iff db hnd x hxrows).mp hxlat
    have h1 : r0.id ≤ x.id := hxmax r0 h0 (by rw [hpid, hxpid])
    have h2 : x.id ≤ r0.id := hmax x hxrows hxpid
    exact row_eq_of_id_eq db.rows hnd x r0 hxrows h0 (by omega)

/-- C6: `latest()` returns exactly one row per distinct `property_id` present
in the store — namely the row carrying the maximum surrogate row id within
that identity's group — for every store state whose surrogate ids are
pairwise distinct (the AUTOINCREMENT invariant of the schema). -/
theorem c6_latest_unique (db : ListingsDB) (pid : Option String)
    (hnd : (db.rows.map Row.id).Nodup)
    (hmem : pid ∈ db.rows.map Row.property_id) :
    ∃ r0, (get_latest_listings db).filter
        (fun r => decide (r.property_id = pid)) = [r0] ∧
      r0 ∈ db.rows ∧ r0.property_id = pid ∧
      ∀ r1 ∈ db.rows, r1.property_id = pid → r1.id ≤ r0.id := by
  obtain ⟨rx, hrx, hrxe⟩ := List.mem_map.mp hmem
  have hxg : rx ∈ db.rows.filter (fun r => decide (r.property_id = pid)) :=
    List.mem_filter.mpr ⟨hrx, by simp [hrxe]⟩
  have hne : ((db.rows.filter (fun r => decide (r.property_id = pid))).map
      Row.id) ≠ [] := by
    intro hc
    rw [List.map_eq_nil_iff] at hc
    rw [hc] at hxg
    exact absurd hxg (List.not_mem_nil rx)
  obtain ⟨ry, hry, hrye⟩ := List.mem_map.mp (natMax_mem _ hne)
  have hryrows : ry ∈ db.rows := (List.mem_filter.mp hry).1
  have hrypid : ry.property_id = pid := by
    have := (List.mem_filter.mp hry).2
    simpa using this
  have hmax : ∀ r1 ∈ db.rows, r1.property_id = pid → r1.id ≤ ry.id := by
    intro r1 h1 hp1
    have h1g : r1 ∈ db.rows.filter (fun r => decide (r.property_id = pid)) :=
      List.mem_filter.mpr ⟨h1, by simp [hp1]⟩
    have := natMax_ge _ r1.id (List.mem_map_of_mem Row.id h1g)
    omega
  exact ⟨ry, latest_group_singleton db hnd pid ry hryrows hrypid hmax,
    hryrows, hrypid, hmax⟩

theorem c6_latest_unique_witness :
    ∃ r0, (get_latest_listings
        { rows := [mkTestRow 1 (some "A") (some "t1"),
                   mkTestRow 2 (some "A") (some "t2"),
                   mkTestRow 3 (some "B") none],
          nextId := 4, now := 5 }).filter
        (fun r => decide (r.property_id = some "A")) = [r0] ∧
      r0 ∈ ({ rows := [mkTestRow 1 (some "A") (some "t1"),
                       mkTestRow 2 (some "A") (some "t2"),
                       mkTestRow 3 (some "B") none],
              nextId := 4, now := 5 } : ListingsDB).rows ∧
      r0.property_id = some "A" ∧
      ∀ r1 ∈ ({ rows := [mkTestRow 1 (some "A") (some "t1"),
                         mkTestRow 2 (some "A") (some "t2"),
                         mkTestRow 3 (some "B") none],
                nextId := 4, now := 5 } : ListingsDB).rows,
        r1.property_id = some "A" → r1.id ≤ r0.id :=
  c6_latest_unique
    { rows := [mkTestRow 1 (some "A") (some "t1"),
               mkTestRow 2 (some "A") (some "t2"),
               mkTestRow 3 (some "B") none],
      nextId := 4, now := 5 }
    (some "A") (by decide) (by decide)

/-- C7: identity isolation — appending a record whose identity is `X` leaves
every existing row whose identity is a different `Y` entirely unchanged (same
position, same columns, same `has_updated` flag). -/
theorem c7_identity_isolation (db : ListingsDB) (r : ListingRecord)
    (X Y : String) (hpid : r.property_id = some X)
    (i : Nat) (hi : i < db.rows.length)
    (hrow : (db.rows.get ⟨i, hi⟩).property_id = some Y) (hXY : X ≠ Y) :
    (save_listing db r).rows[i]? = some (db.rows.get ⟨i, hi⟩) := by
  have hne : (db.rows.get ⟨i, hi⟩).property_id ≠ r.property_id := by
    rw [hrow, hpid]
    exact fun hc => hXY (Option.some.inj hc).symm
  by_cases hfal : pyFalsy r.property_id = true
  · simp [save_listing, hfal, List.getElem?_eq_getElem hi]
  · rw [save_listing, if_neg (by simp [hfal])]
    by_cases hcnt : 0 < (db.rows.filter
        (fun row => decide (row.property_id = r.property_id))).length
    · have hlen : i < (db.rows.map (fun row =>
          if row.property_id = r.property_id then
            { row with has_updated := true }
          else row)).length := by
        rw [List.length_map]; exact hi
      simp only [hcnt, if_true]
      rw [List.getElem?_append_left (by rw [List.length_map]; exact hi)]
      rw [List.getElem?_map, List.getElem?_eq_getElem hi]
      have hbeta : (fun row => if row.property_id = r.property_id then
          { row with has_updated := true } else row) (db.rows.get ⟨i, hi⟩) =
          db.rows.get ⟨i, hi⟩ := if_neg hne
      simp [hbeta]
      intro hc
      exact absurd hc (by simpa using hne)
    · simp only [hcnt, if_false]
      rw [List.getElem?_append_left hi]
      simp [List.getElem?_eq_getElem hi]

theorem c7_identity_isolation_witness :
    (save_listing
      { rows := [mkTestRow 1 (some "Y") (some "old")], nextId := 2, now := 0 }
      (blankRecord (some "X"))).rows[0]? =
      some (({ rows := [mkTestRow 1 (some "Y") (some "old")], nextId := 2,
               now := 0 } : ListingsDB).rows.get ⟨0, by decide⟩) :=
  c7_identity_isolation
    { rows := [mkTestRow 1 (some "Y") (some "old")], nextId := 2, now := 0 }
    (blankRecord (some "X")) "X" "Y" rfl 0 (by decide) (by decide)
    (by decide)

/-- Unfolding of `save_listing` for records with a truthy `property_id`. -/
theorem save_listing_notFalsy (db : ListingsDB) (r : ListingRecord)
    (hfal : pyFalsy r.property_id = false) :
    save_listing db r =
      { rows :=
          (if 0 < (db.rows.filter (fun row =>
              decide (row.property_id = r.property_id))).length then
            db.rows.map (fun row =>
              if row.property_id = r.property_id then
                { row with has_updated := true }
              else row)
          else db.rows)
          ++ [mkRow db.nextId r
                (decide (0 < (db.rows.filter (fun row =>
                  decide (row.property_id = r.property_id))).length)) db.now],
        nextId := db.nextId + 1, now := db.now } := by
  simp only [save_listing]
  rw [if_neg (by simp [hfal])]

/-- The flag-update map is the identity on rows of other identities. -/
theorem map_noMatch (l : List Row) (pid : Option String)
    (h : ∀ row ∈ l, ¬(row.property_id = pid)) :
    l.map (fun row => if row.property_id = pid then
      { row with has_updated := true } else row) = l := by
  induction l with
  | nil => rfl
  | cons y t ih =>
    simp only [List.map_cons]
    rw [if_neg (h y (List.mem_cons_self y t))]
    rw [ih (fun row hr => h row (List.mem_cons_of_mem y hr))]

/-- The flag-update map touches nothing but the `has_updated` column. -/
theorem map_sansFlag_flag (l : List Row) (pid : Option String) :
    (l.map (fun row => if row.property_id = pid then
      { row with has_updated := true } else row)).map sansFlag =
      l.map sansFlag := by
  induction l with
  | nil => rfl
  | cons y t ih =>
    simp only [List.map_cons, ih]
    by_cases h : y.property_id = pid
    · rw [if_pos h]; rfl
    · rw [if_neg h]

/-- C2: versioned append. For a record with a truthy identity, on a store
satisfying the AUTOINCREMENT invariants: (a) when prior rows for the identity
exist, the append flags them all and inserts the new row flagged `true`; (b)
when none exist, it inserts the new row flagged `false`; (c) exactly one row
is added, never deleted; (d) prior rows change in at most the `has_updated`
column; (e) appending the same record twice for a fresh identity yields two
rows, both flagged `true`, and `latest()` then returns only the second. -/
theorem c2_versioned_append (db : ListingsDB) (r : ListingRecord) (s : String)
    (hpid : r.property_id = some s) (hs : s ≠ "")
    (hid : ∀ row ∈ db.rows, row.id < db.nextId)
    (hnd : (db.rows.map Row.id).Nodup) :
    ((0 < (db.rows.filter (fun row =>
        decide (row.property_id = r.property_id))).length) →
      (save_listing db r).rows =
        db.rows.map (fun row =>
          if row.property_id = r.property_id then
            { row with has_updated := true } else row)
        ++ [mkRow db.nextId r true db.now]) ∧
    (((db.rows.filter (fun row =>
        decide (row.property_id = r.property_id))).length = 0) →
      (save_listing db r).rows = db.rows ++ [mkRow db.nextId r false db.now]) ∧
    (save_listing db r).rows.length = db.rows.length + 1 ∧
    ((save_listing db r).rows.take db.rows.length).map sansFlag =
      db.rows.map sansFlag ∧
    (((db.rows.filter (fun row =>
        decide (row.property_id = r.property_id))).length = 0) →
      (save_listing (save_listing db r) r).rows =
        db.rows ++ [mkRow db.nextId r true db.now,
                    mkRow (db.nextId + 1) r true db.now] ∧
      (get_latest_listings (save_listing (save_listing db r) r)).filter
          (fun row => decide (row.property_id = r.property_id)) =
        [mkRow (db.nextId + 1) r true db.now]) := by
  have hfal : pyFalsy r.property_id = false := by
    rw [hpid]; simp [pyFalsy, hs]
  refine ⟨?_, ?_, ?_, ?_, ?_⟩
  · intro h
    rw [save_listing_notFalsy db r hfal]
    simp [h]
  · intro h
    rw [save_listing_notFalsy db r hfal]
    simp [h]
  · rw [save_listing_notFalsy db r hfal]
    by_cases h : 0 < (db.rows.filter (fun row =>
        decide (row.property_id = r.property_id))).length
    · simp [h]
    · simp [h]
  · rw [save_listing_notFalsy db r hfal]
    by_cases h : 0 < (db.rows.filter (fun row =>
        decide (row.property_id = r.property_id))).length
    · rw [if_pos h]
      show ((db.rows.map _ ++ _).take db.rows.length).map sansFlag = _
      rw [List.take_left' (by rw [List.length_map])]
      exact map_sansFlag_flag db.rows r.property_id
    · rw [if_neg h]
      show ((db.rows ++ _).take db.rows.length).map sansFlag = _
      rw [List.take_left' rfl]
  · intro h
    have hnomatch : ∀ row ∈ db.rows, ¬(row.property_id = r.property_id) := by
      have hfe := List.length_eq_zero.mp h
      rw [List.filter_eq_nil_iff] at hfe
      intro row hrow hc
      exact hfe row hrow (by simp [hc])
    have hdb1 : save_listing db r =
        { rows := db.rows ++ [mkRow db.nextId r false db.now],
          nextId := db.nextId + 1, now := db.now } := by
      rw [save_listing_notFalsy db r hfal]
      simp [h]
    have hfA : (fun row => if row.property_id = r.property_id then
        { row with has_updated := true } else row)
        (mkRow db.nextId r false db.now) = mkRow db.nextId r true db.now :=
      if_pos rfl
    have hfiltApp : ((db.rows ++ [mkRow db.nextId r false db.now]).filter
        (fun row => decide (row.property_id = r.property_id))) =
        [mkRow db.nextId r false db.now] := by
      rw [List.filter_append, List.length_eq_zero.mp h]
      simp [mkRow]
    have hcnt1 : 0 < (((db.rows ++ [mkRow db.nextId r false db.now]).filter
        (fun row => decide (row.property_id = r.property_id))).length) := by
      rw [hfiltApp]; simp
    have hrowseq : (db.rows ++ [mkRow db.nextId r false db.now]).map
        (fun row => if row.property_id = r.property_id then
          { row with has_updated := true } else row) =
        db.rows ++ [mkRow db.nextId r true db.now] := by
      rw [List.map_append, map_noMatch db.rows r.property_id hnomatch]
      simp only [List.map_cons, List.map_nil, hfA]
    have hdb2 : save_listing (save_listing db r) r =
        { rows := db.rows ++ [mkRow db.nextId r true db.now,
                              mkRow (db.nextId + 1) r true db.now],
          nextId := db.nextId + 2, now := db.now } := by
      rw [hdb1, save_listing_notFalsy _ r hfal]
      simp only [hcnt1, if_true, hrowseq, decide_eq_true_eq]
      simp [hcnt1]
    refine ⟨by rw [hdb2], ?_⟩
    rw [hdb2]
    have hnd2 : (((db.rows ++ [mkRow db.nextId r true db.now,
        mkRow (db.nextId + 1) r true db.now]).map Row.id)).Nodup := by
      rw [List.map_append]
      refine List.Nodup.append hnd ?_ ?_
      · simp [mkRow]
      · intro a ha hb
        rw [List.mem_map] at ha
        obtain ⟨row, hrow, hre⟩ := ha
        have := hid row hrow
        simp [mkRow] at hb
        omega
    refine latest_group_singleton _ hnd2 r.property_id
      (mkRow (db.nextId + 1) r true db.now) (by simp) rfl ?_
    intro r1 h1 hp1
    rcases List.mem_append.mp h1 with hold | hnew
    · exact absurd hp1 (hnomatch r1 hold)
    · simp only [List.mem_cons, List.not_mem_nil, or_false] at hnew
      rcases hnew with he | he <;> (subst he; simp [mkRow])

theorem c2_versioned_append_witness :
    (save_listing emptyDB (blankRecord (some "P1"))).rows =
      emptyDB.rows ++ [mkRow 1 (blankRecord (some "P1")) false 0] ∧
    (save_listing (save_listing emptyDB (blankRecord (some "P1")))
        (blankRecord (some "P1"))).rows =
      emptyDB.rows ++ [mkRow 1 (blankRecord (some "P1")) true 0,
                       mkRow 2 (blankRecord (some "P1")) true 0] ∧
    (get_latest_listings (save_listing (save_listing emptyDB
        (blankRecord (some "P1"))) (blankRecord (some "P1")))).filter
      (fun row => decide (row.property_id =
        (blankRecord (some "P1")).property_id)) =
      [mkRow 2 (blankRecord (some "P1")) true 0] := by
  have h := c2_versioned_append emptyDB (blankRecord (some "P1")) "P1" rfl
    (by decide) (by intro row hr; exact absurd hr (List.not_mem_nil row))
    List.nodup_nil
  exact ⟨h.2.1 rfl, (h.2.2.2.2 rfl).1, (h.2.2.2.2 rfl).2⟩

/-- Unfolding of the merge on an existing secondary store. -/
theorem merge_databases_some (master : ListingsDB) (sec : List Row) :
    merge_databases master (some sec) =
      ({ rows := master.rows ++ assignIds master.nextId
           (sec.filter (fun r => sqlNotIn r.property_id
             (master.rows.map (fun q => q.property_id)))),
         nextId := master.nextId + (sec.filter (fun r =>
           sqlNotIn r.property_id
             (master.rows.map (fun q => q.property_id)))).length,
         now := master.now },
       some (sec.filter (fun r => sqlNotIn r.property_id
         (master.rows.map (fun q => q.property_id)))).length) := rfl

/-- When neither the tested value nor any element of the identity set is
NULL, the SQL NOT IN test degenerates to plain non-membership. -/
theorem sqlNotIn_of_not_null (x : Option String) (s : List (Option String))
    (hx : x ≠ none) (hs : none ∉ s) :
    sqlNotIn x s = !(decide (x ∈ s)) := by
  match x with
  | none => exact absurd rfl hx
  | some v =>
    rw [sqlNotIn]
    by_cases he : s.isEmpty = true
    · rw [if_pos he]
      have hsnil : s = [] := List.isEmpty_iff.mp he
      subst hsnil
      simp
    · rw [if_neg he]
      by_cases hm : some v ∈ s
      · simp [hm]
      · simp [hm, hs]

/-- C4 counterexample: the master holds a single row whose `property_id` is
NULL; the secondary holds a row with identity "C", which is not present
anywhere in the master, so the claim requires it to be inserted. The merge
inserts nothing (`NOT IN` over a set containing NULL is never true) and
reports 0 added. -/
theorem c4_counterexample :
    (merge_databases { rows := [mkTestRow 1 none none], nextId := 2, now := 0 }
      (some [mkTestRow 1 (some "C") none])).1.rows =
      [mkTestRow 1 none none] ∧
    (merge_databases { rows := [mkTestRow 1 none none], nextId := 2, now := 0 }
      (some [mkTestRow 1 (some "C") none])).2 = some 0 := by decide

/-- C4 amended: provided every `property_id` in the master and in the
secondary is non-NULL, the merge inserts exactly the secondary rows whose
`property_id` is not present anywhere in the master (an identity-presence
test — a secondary row for an identity already in the master is never
copied, whatever its content or timestamp), leaves every pre-existing master
row unchanged in place, and reports the count of rows actually added. With
NULL identities the SQL three-valued NOT IN deviates from plain
non-membership (see C10). -/
theorem c4_amended (master : ListingsDB) (sec : List Row)
    (hm : ∀ row ∈ master.rows, row.property_id ≠ none)
    (hsec : ∀ row ∈ sec, row.property_id ≠ none) :
    (merge_databases master (some sec)).1.rows =
      master.rows ++ assignIds master.nextId
        (sec.filter (fun row => !(decide (row.property_id ∈
          master.rows.map (fun q => q.property_id))))) ∧
    (merge_databases master (some sec)).2 =
      some (sec.filter (fun row => !(decide (row.property_id ∈
        master.rows.map (fun q => q.property_id))))).length ∧
    (merge_databases master (some sec)).1.rows.take master.rows.length =
      master.rows := by
  have hnn : none ∉ master.rows.map (fun q => q.property_id) := by
    rw [List.mem_map]
    rintro ⟨row, hrow, hre⟩
    exact hm row hrow hre
  have hfc : sec.filter (fun r => sqlNotIn r.property_id
      (master.rows.map (fun q => q.property_id))) =
      sec.filter (fun row => !(decide (row.property_id ∈
        master.rows.map (fun q => q.property_id)))) :=
    List.filter_congr
      (fun row hrow => sqlNotIn_of_not_null _ _ (hsec row hrow) hnn)
  rw [merge_databases_some, hfc]
  exact ⟨rfl, rfl, List.take_left' rfl⟩

theorem c4_amended_witness :
    (merge_databases
      { rows := [mkTestRow 1 (some "A") (some "a1"),
                 mkTestRow 2 (some "B") (some "b1")], nextId := 3, now := 0 }
      (some [mkTestRow 7 (some "B") (some "b2"),
             mkTestRow 8 (some "C") (some "c1")])).1.rows =
      [mkTestRow 1 (some "A") (some "a1"), mkTestRow 2 (some "B") (some "b1"),
       mkTestRow 3 (some "C") (some "c1")] ∧
    (merge_databases
      { rows := [mkTestRow 1 (some "A") (some "a1"),
                 mkTestRow 2 (some "B") (some "b1")], nextId := 3, now := 0 }
      (some [mkTestRow 7 (some "B") (some "b2"),
             mkTestRow 8 (some "C") (some "c1")])).2 = some 1 := by
  have h := c4_amended
    { rows := [mkTestRow 1 (some "A") (some "a1"),
               mkTestRow 2 (some "B") (some "b1")], nextId := 3, now := 0 }
    [mkTestRow 7 (some "B") (some "b2"), mkTestRow 8 (some "C") (some "c1")]
    (by decide) (by decide)
  exact ⟨h.1, h.2.1⟩

/-- C10 counterexample: with an empty master table, `NOT IN` over the empty
identity set is true even for a NULL operand, so a secondary row whose own
`property_id` is NULL IS copied into the master — the claim says it is never
copied. -/
theorem c10_counterexample :
    (merge_databases { rows := [], nextId := 1, now := 0 }
      (some [mkTestRow 9 none (some "orphan")])).2 = some 1 ∧
    (merge_databases { rows := [], nextId := 1, now := 0 }
      (some [mkTestRow 9 none (some "orphan")])).1.rows =
      [mkTestRow 1 none (some "orphan")] := by decide

/-- C10 amended: (i) if the master contains at least one row whose
`property_id` is NULL, the merge inserts zero rows from the secondary
regardless of the secondary's content (SQL NOT IN over a set containing NULL
is never true); (ii) a secondary row whose own `property_id` is NULL is
never copied provided the master table is non-empty — when the master is
empty, NOT IN over the empty set is true and even a NULL-identity row is
copied (see the counterexample). -/
theorem c10_amended (master : ListingsDB) (sec : List Row) :
    ((∃ row ∈ master.rows, row.property_id = none) →
      (merge_databases master (some sec)).1.rows = master.rows ∧
      (merge_databases master (some sec)).2 = some 0) ∧
    (master.rows ≠ [] →
      ∀ row ∈ sec.filter (fun r => sqlNotIn r.property_id
        (master.rows.map (fun q => q.property_id))),
        row.property_id ≠ none) := by
  constructor
  · rintro ⟨row0, hrow0, hre0⟩
    have hnl : none ∈ master.rows.map (fun q => q.property_id) :=
      List.mem_map.mpr ⟨row0, hrow0, hre0⟩
    have hnemp : (master.rows.map (fun q => q.property_id)).isEmpty = false := by
      rw [List.isEmpty_eq_false]
      intro hc
      rw [hc] at hnl
      exact absurd hnl (List.not_mem_nil none)
    have hall : ∀ q ∈ sec, sqlNotIn q.property_id
        (master.rows.map (fun r => r.property_id)) = false := by
      intro q _
      rw [sqlNotIn.eq_def, if_neg (by simp [hnemp])]
      cases hqp : q.property_id with
      | none => rfl
      | some v =>
        by_cases hv : some v ∈ master.rows.map (fun r => r.property_id)
        · simp [hv]
        · simp [hv, hnl]
    have hfe : sec.filter (fun r => sqlNotIn r.property_id
        (master.rows.map (fun q => q.property_id))) = [] := by
      rw [List.filter_eq_nil_iff]
      intro a ha
      simp [hall a ha]
    rw [merge_databases_some, hfe]
    exact ⟨by simp [assignIds], by simp⟩
  · intro hne row hrow
    have hmem := List.mem_filter.mp hrow
    intro hc
    have hnemp : (master.rows.map (fun q => q.property_id)).isEmpty = false := by
      rw [List.isEmpty_eq_false]
      intro hmc
      rw [List.map_eq_nil_iff] at hmc
      exact hne hmc
    have hzero : sqlNotIn row.property_id
        (master.rows.map (fun q => q.property_id)) = false := by
      rw [hc, sqlNotIn.eq_def, if_neg (by simp [hnemp])]
    rw [hzero] at hmem
    exact Bool.false_ne_true hmem.2

theorem c10_amended_witness :
    ((merge_databases { rows := [mkTestRow 1 none none], nextId := 2, now := 0 }
        (some [mkTestRow 5 (some "C") none, mkTestRow 6 none none])).1.rows =
      [mkTestRow 1 none none] ∧
     (merge_databases { rows := [mkTestRow 1 none none], nextId := 2, now := 0 }
        (some [mkTestRow 5 (some "C") none, mkTestRow 6 none none])).2 =
      some 0) ∧
    (∀ row ∈ ([mkTestRow 5 (some "C") none,
        mkTestRow 6 none none].filter (fun r => sqlNotIn r.property_id
          (({ rows := [mkTestRow 1 none none], nextId := 2, now := 0 } :
            ListingsDB).rows.map (fun q => q.property_id)))),
      row.property_id ≠ none) := by
  have h := c10_amended
    { rows := [mkTestRow 1 none none], nextId := 2, now := 0 }
    [mkTestRow 5 (some "C") none, mkTestRow 6 none none]
  exact ⟨h.1 ⟨mkTestRow 1 none none, by decide, rfl⟩, h.2 (by decide)⟩
